import Mathlib

/-!
Verification of the client/server call-execution core of go-micro.

Shallow embedding of:
* `src/runtime/kubernetes/logs.go` — the `stream` session (error latch in
  `Send`/`Recv`/`Error`) and the synthesized `request` view (`Read`);
* the server-transport `event` adapter (`newEvent`, `Ack`, `Message`,
  `Error`, `Topic`);
* `src/codec/proto/marshaler.go` — the proto `Marshaler`;
* `src/client/backoff.go` with the backoff shape of the spec;
* the HTTP reverse-proxy handler (`getService`, `ServeHTTP`).

Go errors are modelled as `String` values (distinct Go error values are
distinct strings); `nil` errors are `Option.none`.  Byte slices are
`List Nat`, string-keyed Go maps are association lists with a
zero-value-returning lookup.
-/

/-- Go `error` values, abstracted as strings; `none : Option GoError` is Go's
`nil` error. -/
abbrev GoError := String

/-! ## StreamSession (`src/runtime/kubernetes/logs.go`)

The `stream` struct embeds the raw duplex stream and holds a mutex-guarded
`err` field.  We model only the latch: the underlying `SendMsg`/`RecvMsg`
outcome is the operation's parameter (the raw stream is an external
collaborator), and the lock disappears because the embedding is sequential. -/

/-- The mutable state of a `stream` session: the latched `err` field
(`nil` initially). -/
structure StreamState where
  err : Option GoError
deriving DecidableEq, Repr

/-- A fresh `stream` has a `nil` latched error. -/
def streamInit : StreamState := { err := none }

/-- One call of `stream.Send` or `stream.Recv`, tagged with the outcome the
underlying `SendMsg`/`RecvMsg` produced (`none` = success). -/
inductive StreamOp
  | send (res : Option GoError)
  | recv (res : Option GoError)
deriving DecidableEq, Repr

/-- The underlying transport outcome carried by an operation. -/
def StreamOp.res : StreamOp → Option GoError
  | .send r => r
  | .recv r => r

/-- `stream.Send` / `stream.Recv`: both run
`err := s.Stream.XxxMsg(v); if err != nil { s.Lock(); s.err = err; s.Unlock() }; return err`.
Returns the updated state and the value returned to the caller. -/
def streamStep (s : StreamState) (op : StreamOp) : StreamState × Option GoError :=
  match op.res with
  | none => (s, none)
  | some e => ({ s with err := some e }, some e)

/-- A sequence of `Send`/`Recv` calls, threading the session state. -/
def streamRun (s : StreamState) (ops : List StreamOp) : StreamState :=
  ops.foldl (fun st op => (streamStep st op).1) s

namespace stream

/-- `stream.Error`: `s.RLock(); defer s.RUnlock(); return s.err`. -/
def Error (s : StreamState) : Option GoError := s.err

end stream

/-- The synthesized `request` view: its context carries the metadata returned
by `Header()`.  (`service`/`endpoint` and the codec handle are not needed by
the claims.) -/
structure Request where
  context : List (String × String)
deriving DecidableEq, Repr

namespace request

/-- `request.Read`: `return nil, nil` — no flat request body. -/
def Read (_ : Request) : List Nat × Option GoError := ([], none)

end request

/-! ## EventAdapter (server transport `event`) -/

/-- `transport.Message`: header map plus raw body bytes. -/
structure TransportMessage where
  Header : List (String × String)
  Body : List Nat
deriving DecidableEq, Repr

/-- `broker.Message`, same shape. -/
structure BrokerMessage where
  Header : List (String × String)
  Body : List Nat
deriving DecidableEq, Repr

/-- Go map indexing `m[k]` on a `map[string]string`: the stored value, or the
zero value `""` when the key is absent. -/
def mapLookup (m : List (String × String)) (k : String) : String :=
  match m.find? (fun p => p.1 == k) with
  | some p => p.2
  | none => ""

/-- `transport/headers.Message`, the well-known topic header key. -/
def headersMessage : String := "Micro-Topic"

/-- The `event` struct: latched error and wrapped broker message. -/
structure Event where
  err : Option GoError
  message : BrokerMessage
deriving DecidableEq, Repr

namespace event

/-- `event.Ack`: "there is no ack support" — returns `nil` and touches
nothing. -/
def Ack (_ : Event) : Option GoError := none

/-- `event.Message`: returns the wrapped broker message. -/
def Message (e : Event) : BrokerMessage := e.message

/-- `event.Error`: returns the `err` field. -/
def Error (e : Event) : Option GoError := e.err

/-- `event.Topic`: `return e.message.Header[headers.Message]`. -/
def Topic (e : Event) : String := mapLookup e.message.Header headersMessage

end event

/-- `newEvent`: wraps a transport message, copying header and body verbatim;
the `err` field is left at its zero value `nil`. -/
def newEvent (msg : TransportMessage) : Event :=
  { err := none
    message := { Header := msg.Header, Body := msg.Body } }

/-! ## proto codec (`src/codec/proto/marshaler.go`)

A Go `interface{}` value either implements `proto.Message` or it does not;
the protobuf library itself is an external collaborator, so its
`Marshal`/`Unmarshal` behaviour on genuine messages is a parameter.  Its
errors are distinct Go error values from `codec.ErrInvalidMessage`, which the
error type records by construction. -/

/-- An opaque protobuf message value. -/
structure ProtoMessage where
  id : Nat
deriving DecidableEq, Repr

/-- A Go `interface{}` value handed to the codec: either a `proto.Message`
or some other value. -/
inductive GoValue
  | protoMsg (m : ProtoMessage)
  | nonProto (desc : String)
deriving DecidableEq, Repr

/-- Whether the type assertion `v.(proto.Message)` succeeds. -/
def GoValue.isProtoMsg : GoValue → Bool
  | .protoMsg _ => true
  | .nonProto _ => false

/-- Errors the proto codec can return: the codec's own
`codec.ErrInvalidMessage`, or an error originating inside the protobuf
library (a distinct Go error value). -/
inductive CodecError
  | errInvalidMessage
  | libError (msg : String)
deriving DecidableEq, Repr

/-- The external protobuf library: marshalling may fail with a library
error, unmarshalling returns a library error or `nil`. -/
structure ProtoLib where
  marshal : ProtoMessage → Except String (List Nat)
  unmarshal : List Nat → ProtoMessage → Option String

namespace Marshaler

/-- `Marshaler.Marshal`: type-assert to `proto.Message`
(else `codec.ErrInvalidMessage`), then `proto.Marshal`. -/
def Marshal (lib : ProtoLib) (v : GoValue) : Except CodecError (List Nat) :=
  match v with
  | .nonProto _ => .error .errInvalidMessage
  | .protoMsg pb =>
    match lib.marshal pb with
    | .error e => .error (.libError e)
    | .ok buf => .ok buf

/-- `Marshaler.Unmarshal`: type-assert to `proto.Message`
(else `codec.ErrInvalidMessage`), then `proto.Unmarshal`. -/
def Unmarshal (lib : ProtoLib) (data : List Nat) (v : GoValue) : Option CodecError :=
  match v with
  | .nonProto _ => some .errInvalidMessage
  | .protoMsg pb =>
    match lib.unmarshal data pb with
    | some e => some (.libError e)
    | none => none

end Marshaler

/-! ## BackoffPolicy (`src/client/backoff.go`) -/

/-- Modelled from the spec: `util/backoff.Do`, called by
`client.exponentialBackoff`, is not included under `src/`; the spec fixes
the canonical shape `duration = min(cap, base * 2^attemptIndex)` (§4.2).
Durations are `Int` nanoseconds, as Go's `time.Duration` is an `int64`. -/
def backoffDo (base cap : Int) (attempts : Nat) : Int :=
  min cap (base * 2 ^ attempts)

/-- `client.exponentialBackoff`: `return backoff.Do(attempts), nil`. -/
def exponentialBackoff (base cap : Int) (attempts : Nat) : Int × Option GoError :=
  (backoffDo base cap attempts, none)

/-! ## HTTP reverse-proxy handler (`httpHandler`)

`router.Route` and the selector's node-picking function are external
collaborators; their outcomes for the one request under consideration are
fields of the environment.  `url.Parse` is a predicate parameter. -/

/-- `registry.Node`: only the address matters here. -/
structure Node where
  Address : String
deriving DecidableEq, Repr

/-- `router.Route`: only its presence matters to `getService` (its
`Versions` feed the selector, whose outcome is modelled separately). -/
structure Route where
  Versions : List String
deriving DecidableEq, Repr

/-- The collaborators' behaviour on one request: whether
`h.options.Router` is non-nil, what `Router.Route(r)` returns, and what the
selector's `next()` returns. -/
structure HandlerEnv where
  routerPresent : Bool
  routeResult : Except GoError Route
  nextResult : Except GoError Node

/-- `httpHandler.getService`: route via the router (absent router or router
error fail), then ask the selector for a node; a selector error yields
`"", nil`; otherwise `"http://" + node.Address`. -/
def getService (env : HandlerEnv) : String × Option GoError :=
  if env.routerPresent then
    match env.routeResult with
    | .error e => ("", some e)
    | .ok _ =>
      match env.nextResult with
      | .error _ => ("", none)
      | .ok n => ("http://" ++ n.Address, none)
  else
    ("", some "no route found")

/-- What `httpHandler.ServeHTTP` does with the response writer. -/
inductive ServeOutcome
  | internalServerError
  | notFound
  | proxied (target : String)
deriving DecidableEq, Repr

/-- `httpHandler.ServeHTTP`: non-nil `getService` error → 500; empty
service string → 404; `url.Parse` failure → 500; else reverse-proxy. -/
def serveHTTP (env : HandlerEnv) (urlParseOk : String → Bool) : ServeOutcome :=
  match getService env with
  | (_, some _) => .internalServerError
  | (service, none) =>
    if service.length = 0 then .notFound
    else if urlParseOk service then .proxied service
    else .internalServerError

/-! ## Helper lemmas -/

/-- A run consisting only of successful operations leaves the session state
unchanged. -/
theorem streamRun_of_success (ops : List StreamOp) :
    ∀ s : StreamState, (∀ o ∈ ops, o.res = none) → streamRun s ops = s := by
  induction ops with
  | nil => intro s _; rfl
  | cons op ops ih =>
    intro s h
    have hop : op.res = none := h op (List.mem_cons_self _ _)
    have hstep : (streamStep s op).1 = s := by simp [streamStep, hop]
    calc streamRun s (op :: ops) = streamRun (streamStep s op).1 ops := rfl
      _ = streamRun s ops := by rw [hstep]
      _ = s := ih s fun o ho => h o (List.mem_cons_of_mem _ ho)

/-- Looking a key up in a map none of whose entries carry it returns the
zero value. -/
theorem mapLookup_of_absent (m : List (String × String)) (k : String)
    (h : ∀ p ∈ m, p.1 ≠ k) : mapLookup m k = "" := by
  have hfind : (m.find? fun p => p.1 == k) = none := by
    rw [List.find?_eq_none]
    intro p hp
    simpa using h p hp
  simp [mapLookup, hfind]

/-! ## Claims -/

/-- C1 counterexample: a session whose `Recv` fails with `"read failed"` and
whose later `Send` fails with the different error `"write failed"` reports
the *second* error from `Error()`, not the first latched one — the latch is
overwritten, refuting first-error-wins. -/
theorem stream_first_error_overwritten :
    stream.Error (streamRun streamInit
        [StreamOp.recv (some "read failed"), StreamOp.send (some "write failed")])
      = some "write failed" ∧
    (some "write failed" : Option GoError) ≠ some "read failed" := by
  constructor
  · rfl
  · decide

/-- C1 (amended): the latch is last-error-wins — any `Send`/`Receive` that
fails with error `e` stores `e` as the latched error, regardless of any
previously latched error, and still returns `e` to the caller. -/
theorem stream_last_error_wins (s : StreamState) (op : StreamOp) (e : GoError)
    (h : op.res = some e) :
    (streamStep s op).1.err = some e ∧ (streamStep s op).2 = some e := by
  simp [streamStep, h]

/-- C1 amended witness at a concrete input. -/
theorem stream_last_error_wins_witness :
    (streamStep { err := some "old" } (StreamOp.send (some "new"))).1.err = some "new" ∧
    (streamStep { err := some "old" } (StreamOp.send (some "new"))).2 = some "new" :=
  stream_last_error_wins { err := some "old" } (StreamOp.send (some "new")) "new" rfl

/-- C2: with non-negative base and cap, the backoff
`min(cap, base * 2^attemptIndex)` is non-negative, monotone non-decreasing
in the attempt index, and bounded by the cap, and `exponentialBackoff`
returns exactly that duration with a `nil` error. -/
theorem backoff_nonneg_monotone_capped (base cap : Int) (i : Nat)
    (hb : 0 ≤ base) (hc : 0 ≤ cap) :
    0 ≤ backoffDo base cap i ∧
    backoffDo base cap i ≤ backoffDo base cap (i + 1) ∧
    backoffDo base cap (i + 1) ≤ cap ∧
    exponentialBackoff base cap i = (min cap (base * 2 ^ i), none) := by
  refine ⟨le_min hc ?_, ?_, min_le_left _ _, rfl⟩
  · exact mul_nonneg hb (pow_nonneg (by norm_num) _)
  · apply min_le_min le_rfl
    have h2 : (2 : Int) ^ i ≤ 2 ^ (i + 1) := by
      apply pow_le_pow_right₀ (by norm_num) (Nat.le_succ i)
    exact mul_le_mul_of_nonneg_left h2 hb

/-- C2 witness at a concrete input. -/
theorem backoff_nonneg_monotone_capped_witness :
    0 ≤ backoffDo 100 1000 3 ∧
    backoffDo 100 1000 3 ≤ backoffDo 100 1000 4 ∧
    backoffDo 100 1000 4 ≤ 1000 ∧
    exponentialBackoff 100 1000 3 = (min 1000 (100 * 2 ^ 3), none) :=
  backoff_nonneg_monotone_capped 100 1000 3 (by norm_num) (by norm_num)

/-- C3: for any behaviour of the protobuf library, `Marshal` and `Unmarshal`
return `codec.ErrInvalidMessage` exactly when the supplied value is not a
`proto.Message`; on a genuine message that error is never produced. -/
theorem proto_codec_invalid_message_iff (lib : ProtoLib) (v : GoValue) (data : List Nat) :
    (Marshaler.Marshal lib v = .error .errInvalidMessage ↔ v.isProtoMsg = false) ∧
    (Marshaler.Unmarshal lib data v = some .errInvalidMessage ↔ v.isProtoMsg = false) := by
  cases v with
  | protoMsg pb =>
    constructor
    · simp only [Marshaler.Marshal, GoValue.isProtoMsg]
      cases lib.marshal pb <;> simp
    · simp only [Marshaler.Unmarshal, GoValue.isProtoMsg]
      cases lib.unmarshal data pb <;> simp
  | nonProto d =>
    constructor <;> simp [Marshaler.Marshal, Marshaler.Unmarshal, GoValue.isProtoMsg]

/-- C4: wrapping a transport message as an event and reading the message
back reproduces the header mapping and the body byte for byte. -/
theorem newEvent_lossless (msg : TransportMessage) :
    (event.Message (newEvent msg)).Header = msg.Header ∧
    (event.Message (newEvent msg)).Body = msg.Body :=
  ⟨rfl, rfl⟩

/-- C5: any underlying transport error from `Send`/`Recv` is returned to the
immediate caller, and after a first `Recv` fails with `e`, any sequence of
subsequent successful operations leaves `Error()` returning `e`. -/
theorem stream_error_propagated_and_sticky (s : StreamState) (op : StreamOp)
    (e : GoError) (ops : List StreamOp)
    (hfail : op.res = some e) (hsucc : ∀ o ∈ ops, o.res = none) :
    (streamStep s op).2 = some e ∧
    stream.Error (streamRun (streamStep streamInit (StreamOp.recv (some e))).1 ops)
      = some e := by
  constructor
  · simp [streamStep, hfail]
  · rw [streamRun_of_success ops _ hsucc]
    rfl

/-- C5 witness: first `Recv` fails with `"boom"`, a later `Send` succeeds. -/
theorem stream_error_propagated_and_sticky_witness :
    (streamStep streamInit (StreamOp.recv (some "boom"))).2 = some "boom" ∧
    stream.Error (streamRun (streamStep streamInit (StreamOp.recv (some "boom"))).1
        [StreamOp.send none]) = some "boom" :=
  stream_error_propagated_and_sticky streamInit (StreamOp.recv (some "boom")) "boom"
    [StreamOp.send none] rfl (by decide)

/-- C6: `Ack()` always returns a `nil` error, for every event, and being a
pure function of the event it changes no state. -/
theorem event_ack_always_succeeds (e : Event) : event.Ack e = none := rfl

/-- C7: `Topic()` is the value stored under the well-known header key of the
wrapped message, and when that key is absent it is the empty string. -/
theorem event_topic_from_header (msg : TransportMessage) :
    event.Topic (newEvent msg) = mapLookup msg.Header headersMessage ∧
    ((∀ p ∈ msg.Header, p.1 ≠ headersMessage) → event.Topic (newEvent msg) = "") := by
  refine ⟨rfl, fun h => ?_⟩
  show mapLookup msg.Header headersMessage = ""
  exact mapLookup_of_absent msg.Header headersMessage h

/-- C7 witness: a message whose header lacks the topic key. -/
theorem event_topic_from_header_witness :
    event.Topic (newEvent ⟨[("a", "b")], []⟩) = mapLookup [("a", "b")] headersMessage ∧
    event.Topic (newEvent ⟨[("a", "b")], []⟩) = "" :=
  ⟨(event_topic_from_header ⟨[("a", "b")], []⟩).1,
   (event_topic_from_header ⟨[("a", "b")], []⟩).2 (by decide)⟩

/-- C8: constructing an event from any transport message (the constructor is
a total function) yields an event whose `Error()` is `nil` and whose fields
read back the input. -/
theorem newEvent_total_no_error (msg : TransportMessage) :
    event.Error (newEvent msg) = none ∧
    event.Message (newEvent msg) = ⟨msg.Header, msg.Body⟩ :=
  ⟨rfl, rfl⟩

/-- C9: the synthesized request view's `Read` returns an empty body and a
`nil` error, whatever the request state. -/
theorem request_read_empty (r : Request) : request.Read r = ([], none) := rfl

/-- C10: when the router resolves a route but the selector's node-picking
function fails, `getService` returns the empty service string with a `nil`
error (the selector's error is discarded), so `ServeHTTP` answers
404 Not Found. -/
theorem http_handler_no_node_404 (env : HandlerEnv) (parse : String → Bool)
    (rt : Route) (e : GoError)
    (hp : env.routerPresent = true)
    (hr : env.routeResult = Except.ok rt)
    (hn : env.nextResult = Except.error e) :
    getService env = ("", none) ∧ serveHTTP env parse = ServeOutcome.notFound := by
  have hs : getService env = ("", none) := by
    simp [getService, hp, hr, hn]
  exact ⟨hs, by simp [serveHTTP, hs]⟩

/-- C10 witness at a concrete environment. -/
theorem http_handler_no_node_404_witness :
    getService ⟨true, Except.ok ⟨["v1"]⟩, Except.error "none available"⟩ = ("", none) ∧
    serveHTTP ⟨true, Except.ok ⟨["v1"]⟩, Except.error "none available"⟩ (fun _ => true)
      = ServeOutcome.notFound :=
  http_handler_no_node_404 ⟨true, Except.ok ⟨["v1"]⟩, Except.error "none available"⟩
    (fun _ => true) ⟨["v1"]⟩ "none available" rfl rfl rfl
